import Mathlib

/-!
Verification of the kube-janitor resource lifecycle engine.

This file gives a shallow embedding, in Lean, of the core decision logic of
the janitor package (pkg/janitor): TTL and expiry parsing (helper.go),
duration formatting, rule matching (rules.go), the PVC context provider
(context.go), the per-resource decision engine and the dispatcher
(janitor.go), and the resource-type catalog deduplication (resources.go).
Machine integers (Go int64 durations in nanoseconds) are modelled as Int
with explicit two's-complement wrap-around where Go would overflow.
-/

set_option autoImplicit false

/-! ## Decimal digits and integer parsing (models Go strconv.Atoi inputs) -/

/-- The numeric value of a decimal digit character. -/
def dVal (c : Char) : Nat := c.toNat - 48

/-- The decimal digit character for a value below ten. -/
def digitChar : Nat → Char
  | 0 => '0'
  | 1 => '1'
  | 2 => '2'
  | 3 => '3'
  | 4 => '4'
  | 5 => '5'
  | 6 => '6'
  | 7 => '7'
  | 8 => '8'
  | _ => '9'

/-- Fuel-driven digit expansion; the fuel only bounds the recursion depth. -/
def natDigitsAux : Nat → Nat → List Char
  | 0, _ => []
  | fuel + 1, n =>
    if n < 10 then [digitChar n]
    else natDigitsAux fuel (n / 10) ++ [digitChar (n % 10)]

/-- Decimal digit list of a natural number, most significant digit first. -/
def natDigits (n : Nat) : List Char := natDigitsAux (n + 1) n

/-- Value of a digit list, most significant first. -/
def digitsVal (cs : List Char) : Nat :=
  cs.foldl (fun a c => a * 10 + dVal c) 0

/-- Rendering of a natural number as a decimal string. -/
def natToString (n : Nat) : String := String.mk (natDigits n)

/-! ## Go int64 arithmetic -/

/-- Largest value of a 64-bit signed integer. -/
def int64Max : Int := 9223372036854775807

/-- Two's-complement wrap-around of 64-bit signed multiplication results. -/
def wrap64 (x : Int) : Int := (x + 9223372036854775808) % 18446744073709551616 - 9223372036854775808

/-! ## Time units (types.go TimeUnit) and ParseTTL / FormatDuration (helper.go) -/

/-- One second in nanoseconds (Go time.Second). -/
def secondNs : Int := 1000000000

/-- One minute in nanoseconds (Go time.Minute). -/
def minuteNs : Int := 60000000000

/-- One hour in nanoseconds (Go time.Hour). -/
def hourNs : Int := 3600000000000

/-- One day in nanoseconds (24 * time.Hour). -/
def dayNs : Int := 86400000000000

/-- One week in nanoseconds (7 * 24 * time.Hour). -/
def weekNs : Int := 604800000000000

/-- The TimeUnit map of types.go: unit suffix to duration in nanoseconds. -/
def timeUnitList : List (Char × Int) :=
  [('s', secondNs), ('m', minuteNs), ('h', hourNs), ('d', dayNs), ('w', weekNs)]

/-- Lookup in the TimeUnit map. -/
def timeUnit (c : Char) : Option Int :=
  (timeUnitList.find? (fun p => p.1 == c)).map (fun p => p.2)

/-- The unit suffix characters accepted by the ttlPattern regex. -/
def unitChars : List Char := ['s', 'm', 'h', 'd', 'w']

/-- Models the ttlPattern regex match on a character list: one or more
digits followed by a single unit character, anchored at both ends. -/
def ttlMatch (cs : List Char) : Option (List Char × Char) :=
  match cs.reverse with
  | [] => none
  | u :: frontRev =>
    if unitChars.contains u && !frontRev.isEmpty && frontRev.all Char.isDigit then
      some (frontRev.reverse, u)
    else none

/-- Models strconv.Atoi on the digit substring captured by the TTL regex:
a 64-bit integer parse that fails with a range error on overflow. -/
def atoiDigits (cs : List Char) : Except String Int :=
  if cs ≠ [] ∧ cs.all Char.isDigit = true then
    if (digitsVal cs : Int) ≤ int64Max then .ok (digitsVal cs : Int)
    else .error "value out of range"
  else .error "invalid syntax"

/-- The TTLUnlimited constant of constants.go. -/
def ttlUnlimited : String := "forever"

/-- ParseTTL of helper.go: parses a TTL string into a duration in
nanoseconds; the literal "forever" yields the sentinel -1. -/
def ParseTTL (ttl : String) : Except String Int :=
  if ttl = ttlUnlimited then .ok (-1)
  else
    match ttlMatch ttl.toList with
    | none => .error "TTL value does not match format"
    | some (ds, u) =>
      match atoiDigits ds with
      | .error e => .error e
      | .ok v =>
        match timeUnit u with
        | none => .error "unknown time unit"
        | some unitDur => .ok (wrap64 (v * unitDur))

/-- The ordered unit table of FormatDuration: largest unit first. -/
def unitsTable : List (Int × String) :=
  [(weekNs, "w"), (dayNs, "d"), (hourNs, "h"), (minuteNs, "m"), (secondNs, "s")]

/-- Decimal rendering of a non-negative value, as fmt.Sprintf with %d. -/
def intToStr (v : Int) : String := String.mk (natDigits v.toNat)

/-- The formatting loop of FormatDuration: divides the remaining duration by
each unit in turn, appending a chunk whenever the quotient is positive. -/
def fmtLoop : List (Int × String) → String → Int → String
  | [], acc, _ => acc
  | (ud, us) :: rest, acc, remaining =>
    if 0 < remaining / ud then
      fmtLoop rest (acc ++ intToStr (remaining / ud) ++ us) (remaining % ud)
    else fmtLoop rest acc remaining

/-- FormatDuration on a non-negative duration. -/
def formatDurationPos (d : Int) : String :=
  let s := fmtLoop unitsTable "" d
  if s = "" then "0s" else s

/-- FormatDuration of helper.go.  A negative duration is rendered as a
leading minus sign followed by the rendering of its negation (Go recurses
into FormatDuration(-d), which then takes the non-negative path). -/
def FormatDuration (d : Int) : String :=
  if d < 0 then "-" ++ formatDurationPos (-d) else formatDurationPos d

/-- The greedy decomposition chunks corresponding to the formatting loop. -/
def decompLoop : List (Int × String) → Int → List (Int × String)
  | [], _ => []
  | (ud, us) :: rest, remaining => (remaining / ud, us) :: decompLoop rest (remaining % ud)

/-- Rendering of decomposition chunks: positive values only, in table order. -/
def renderChunks (chunks : List (Int × String)) : String :=
  chunks.foldl (fun acc vu => if 0 < vu.1 then acc ++ intToStr vu.1 ++ vu.2 else acc) ""

/-- Nanosecond duration denoted by a unit suffix string of the table. -/
def unitNsOf (s : String) : Int :=
  if s = "w" then weekNs
  else if s = "d" then dayNs
  else if s = "h" then hourNs
  else if s = "m" then minuteNs
  else if s = "s" then secondNs
  else 0

/-- Total duration denoted by a list of rendered chunks. -/
def chunksDuration (chunks : List (Int × String)) : Int :=
  (chunks.map (fun vu => vu.1 * unitNsOf vu.2)).sum

/-! ## Timestamp parsing (helper.go dateTimeFormats, Go time.Parse layouts) -/

/-- A parsed calendar timestamp with a zone offset in minutes. -/
structure DateT where
  year : Nat
  month : Nat
  day : Nat
  hour : Nat
  minute : Nat
  second : Nat
  offMin : Int
deriving DecidableEq

/-- Gregorian leap-year rule. -/
def isLeapYear (y : Nat) : Bool :=
  (y % 4 == 0 && !(y % 100 == 0)) || y % 400 == 0

/-- Number of days of a month, as validated by Go time.Parse. -/
def daysInMonth (y m : Nat) : Nat :=
  if m = 2 then (if isLeapYear y then 29 else 28)
  else if m = 4 ∨ m = 6 ∨ m = 9 ∨ m = 11 then 30
  else 31

/-- Calendar-date field validation. -/
def validYMD (y mo d : Nat) : Bool :=
  decide (1 ≤ mo ∧ mo ≤ 12 ∧ 1 ≤ d ∧ d ≤ daysInMonth y mo)

/-- Clock field validation. -/
def validHMS (h mi s : Nat) : Bool :=
  decide (h ≤ 23 ∧ mi ≤ 59 ∧ s ≤ 59)

/-- Value of two digit characters. -/
def twoDigits (a b : Char) : Nat := dVal a * 10 + dVal b

/-- Value of four digit characters. -/
def fourDigits (a b c d : Char) : Nat :=
  ((dVal a * 10 + dVal b) * 10 + dVal c) * 10 + dVal d

/-- All characters are decimal digits. -/
def allDig (cs : List Char) : Bool := cs.all Char.isDigit

/-- Zone suffix of the RFC-3339 layout: Z or a signed hh:mm offset,
yielding the offset in minutes. -/
def parseZone : List Char → Option Int
  | ['Z'] => some 0
  | ['+', a, b, ':', c, d] =>
    if allDig [a, b, c, d] && twoDigits a b ≤ 23 && twoDigits c d ≤ 59 then
      some ((twoDigits a b : Int) * 60 + (twoDigits c d : Int))
    else none
  | ['-', a, b, ':', c, d] =>
    if allDig [a, b, c, d] && twoDigits a b ≤ 23 && twoDigits c d ≤ 59 then
      some (-((twoDigits a b : Int) * 60 + (twoDigits c d : Int)))
    else none
  | _ => none

/-- Optional fractional seconds (ignored for the instant) followed by the
zone suffix. -/
def parseFracZone : List Char → Option Int
  | '.' :: rest =>
    if (rest.takeWhile Char.isDigit).isEmpty then none
    else parseZone (rest.dropWhile Char.isDigit)
  | rest => parseZone rest

/-- Go time.Parse with the time.RFC3339 layout: full date, a literal T,
a full clock time with seconds, and a mandatory zone. -/
def parseRFC3339 (s : String) : Option DateT :=
  match s.toList with
  | y1 :: y2 :: y3 :: y4 :: '-' :: a1 :: a2 :: '-' :: b1 :: b2 :: 'T' ::
      h1 :: h2 :: ':' :: i1 :: i2 :: ':' :: s1 :: s2 :: rest =>
    if allDig [y1, y2, y3, y4, a1, a2, b1, b2, h1, h2, i1, i2, s1, s2]
        && validYMD (fourDigits y1 y2 y3 y4) (twoDigits a1 a2) (twoDigits b1 b2)
        && validHMS (twoDigits h1 h2) (twoDigits i1 i2) (twoDigits s1 s2) then
      match parseFracZone rest with
      | some off =>
        some ⟨fourDigits y1 y2 y3 y4, twoDigits a1 a2, twoDigits b1 b2,
          twoDigits h1 h2, twoDigits i1 i2, twoDigits s1 s2, off⟩
      | none => none
    else none
  | _ => none

/-- Go time.Parse with the layout 2006-01-02T15:04: minute precision,
no seconds and no zone (UTC). -/
def parseMinuteFmt (s : String) : Option DateT :=
  match s.toList with
  | [y1, y2, y3, y4, '-', a1, a2, '-', b1, b2, 'T', h1, h2, ':', i1, i2] =>
    if allDig [y1, y2, y3, y4, a1, a2, b1, b2, h1, h2, i1, i2]
        && validYMD (fourDigits y1 y2 y3 y4) (twoDigits a1 a2) (twoDigits b1 b2)
        && validHMS (twoDigits h1 h2) (twoDigits i1 i2) 0 then
      some ⟨fourDigits y1 y2 y3 y4, twoDigits a1 a2, twoDigits b1 b2,
        twoDigits h1 h2, twoDigits i1 i2, 0, 0⟩
    else none
  | _ => none

/-- Go time.Parse with the layout 2006-01-02: date only, midnight UTC. -/
def parseDateFmt (s : String) : Option DateT :=
  match s.toList with
  | [y1, y2, y3, y4, '-', a1, a2, '-', b1, b2] =>
    if allDig [y1, y2, y3, y4, a1, a2, b1, b2]
        && validYMD (fourDigits y1 y2 y3 y4) (twoDigits a1 a2) (twoDigits b1 b2) then
      some ⟨fourDigits y1 y2 y3 y4, twoDigits a1 a2, twoDigits b1 b2, 0, 0, 0, 0⟩
    else none
  | _ => none

/-- ParseExpiry of helper.go: tries RFC-3339, then the minute-precision
layout, then the date-only layout; the first successful parse wins. -/
def ParseExpiry (expiry : String) : Option DateT :=
  match parseRFC3339 expiry with
  | some t => some t
  | none =>
    match parseMinuteFmt expiry with
    | some t => some t
    | none => parseDateFmt expiry

/-- Days between a civil date and 1970-01-01 (valid for positive years). -/
def daysFromEpoch (y m d : Nat) : Int :=
  let yy := if m ≤ 2 then y - 1 else y
  let era := yy / 400
  let yoe := yy % 400
  let mp := if 2 < m then m - 3 else m + 9
  let doy := (153 * mp + 2) / 5 + (d - 1)
  let doe := yoe * 365 + yoe / 4 - yoe / 100 + doy
  ((era * 146097 + doe : Nat) : Int) - 719468

/-- Seconds since the Unix epoch denoted by a parsed timestamp. -/
def dtToSec (t : DateT) : Int :=
  daysFromEpoch t.year t.month t.day * 86400 +
    (t.hour : Int) * 3600 + (t.minute : Int) * 60 + (t.second : Int) - t.offMin * 60

/-- Nanoseconds since the Unix epoch denoted by a parsed timestamp. -/
def dtToNs (t : DateT) : Int := dtToSec t * secondNs

/-! ## Generic document trees and rule matching (rules.go) -/

/-- A generic structured value (Go interface trees of maps, lists and
scalars), used for JMESPath evaluation documents. -/
inductive Json where
  | null
  | bool (b : Bool)
  | num (n : Int)
  | str (s : String)
  | arr (items : List Json)
  | obj (fields : List (String × Json))

/-- Lookup of a key in an object field list. -/
def jLookup : List (String × Json) → String → Option Json
  | [], _ => none
  | (k', v) :: rest, k => if k' = k then some v else jLookup rest k

/-- Go map assignment on an object field list. -/
def jSet : List (String × Json) → String → Json → List (String × Json)
  | [], k, v => [(k, v)]
  | (k', v') :: rest, k, v =>
    if k' = k then (k, v) :: rest else (k', v') :: jSet rest k v

/-- The truthiness coercion of Rule.Matches on the JMESPath search result:
booleans as is, non-empty strings, lists and mappings are true, anything
else (numbers, null) is false. -/
def truthy : Json → Bool
  | .bool b => b
  | .str s => s != ""
  | .arr items => !items.isEmpty
  | .obj fields => !fields.isEmpty
  | _ => false

/-- ASCII lower-casing of one character (the range Go strings.ToLower
affects for the ASCII kind names involved here). -/
def lowerChar (c : Char) : Char :=
  if 'A' ≤ c ∧ c ≤ 'Z' then Char.ofNat (c.toNat + 32) else c

/-- ASCII lower-casing of a string (models strings.ToLower on kind
names). -/
def lowerString (s : String) : String := String.mk (s.toList.map lowerChar)

/-- Whether the first list is an initial segment of the second. -/
def listIsPre : List Char → List Char → Bool
  | [], _ => true
  | _ :: _, [] => false
  | a :: as, b :: bs => a == b && listIsPre as bs

/-- A TTL rule (rules.go).  The compiled JMESPath expression is modelled as
an abstract search function from the evaluation document to a result or an
evaluation error. -/
structure Rule where
  id : String
  resources : List String
  ttl : String
  search : Json → Except String Json

/-- Rule.Matches of rules.go: the resource-type gate followed by JMESPath
evaluation over the resource with the context injected and the truthiness
coercion.  The plural type name is built by fmt.Sprintf as kind + "s",
without lowercasing the kind. -/
def Rule.Matches (r : Rule) (resource : List (String × Json))
    (context : List (String × Json)) : Bool :=
  match jLookup resource "kind" with
  | some (.str kind) =>
    let resourceType := kind ++ "s"
    if r.resources.any (fun a => a == "*" || a == resourceType) then
      match r.search (.obj (jSet resource "_context" (.obj context))) with
      | .error _ => false
      | .ok v => truthy v
    else false
  | _ => false

/-! ## Cluster objects, configuration and effects (janitor.go data model) -/

/-- How a resource handle was produced, determining what the Go type
assertions to unstructured.Unstructured or corev1.Namespace observe. -/
inductive ObjShape where
  | unstructured (kind : String)
  | typedNamespace
  | typedOther
deriving DecidableEq

/-- A cluster object handle: the metav1.Object surface (namespace, name,
creation timestamp in epoch nanoseconds, annotations, where a missing map
models a nil annotation map) plus its generic representation for JMESPath
evaluation (objectToMap). -/
structure KObj where
  shape : ObjShape
  nspace : String
  name : String
  creationNs : Int
  annotations : Option (List (String × String))
  asMap : List (String × Json)

/-- Lookup of a key in a string-to-string annotation map. -/
def sLookup : List (String × String) → String → Option String
  | [], _ => none
  | (k', v) :: rest, k => if k' = k then some v else sLookup rest k

/-- Go map assignment on a string-to-string annotation map. -/
def sSet : List (String × String) → String → String → List (String × String)
  | [], k, v => [(k, v)]
  | (k', v') :: rest, k, v =>
    if k' = k then (k, v) :: rest else (k', v') :: sSet rest k v

/-- The kind seen through a type assertion to unstructured.Unstructured;
all typed objects yield "Unknown". -/
def KObj.kindUnstruct (o : KObj) : String :=
  match o.shape with
  | .unstructured k => k
  | _ => "Unknown"

/-- The kind seen by matchesResourceFilter, which additionally recognizes
typed corev1.Namespace objects. -/
def KObj.kindFilter (o : KObj) : String :=
  match o.shape with
  | .unstructured k => k
  | .typedNamespace => "Namespace"
  | .typedOther => "Unknown"

/-- The janitor/ttl marker key (TTLAnnotation of constants.go). -/
def ttlKey : String := "janitor/ttl"

/-- The janitor/expires marker key (ExpiryAnnotation of constants.go). -/
def expiryKey : String := "janitor/expires"

/-- The janitor/notified marker key (NotifiedAnnotation of constants.go). -/
def notifiedKey : String := "janitor/notified"

/-- The janitor configuration fields consulted by the decision engine.
deleteNotify is the DeleteNotification window in seconds, deployTimeKey the
DeploymentTimeAnnotation marker name (empty when unset), webhookURL the
WEBHOOK_URL environment value, and hook the configured
ResourceContextHook. -/
structure Config where
  dryRun : Bool
  rules : List Rule
  deleteNotify : Int
  deployTimeKey : String
  includeResources : List String
  excludeResources : List String
  includeNamespaces : List String
  excludeNamespaces : List String
  includeClusterResources : Bool
  webhookURL : String
  hook : Option (KObj → List (String × Json))

/-- Observable side effects of one decision.  Event creation, deletion and
webhook posts are the calls that reach external collaborators; dry-run and
warning lines are local logging only.  The external client is modelled as
always succeeding. -/
inductive Effect where
  | dryLog (msg : String)
  | warnLog (msg : String)
  | eventCall (reason : String)
  | deleteCall (nspace name : String)
  | webhookCall
deriving DecidableEq

/-- Whether an effect is a mutating call reaching an external client. -/
def Effect.isClientCall : Effect → Bool
  | .eventCall _ => true
  | .deleteCall _ _ => true
  | .webhookCall => true
  | _ => false

/-- Run counters (the counter map of janitor.go). -/
abbrev Counter := List (String × Nat)

/-- Counter increment (counter[key]++ under the counter mutex). -/
def bump : Counter → String → Counter
  | [], k => [(k, 1)]
  | (k', v) :: rest, k =>
    if k' = k then (k', v + 1) :: rest else (k', v) :: bump rest k

/-- Counter read-out (missing keys read as zero). -/
def cget : Counter → String → Nat
  | [], _ => 0
  | (k', v) :: rest, k => if k' = k then v else cget rest k

/-- Result of one handler invocation: an optional per-object error, the
possibly updated object (notified marker), the counters and the effects. -/
structure HRes where
  err : Option String
  obj : KObj
  counter : Counter
  effects : List Effect

/-! ## Decision engine side-effect helpers (janitor.go) -/

/-- createEvent of janitor.go: a dry-run log line, or an event API call. -/
def createEvent (cfg : Config) (reason : String) : List Effect :=
  if cfg.dryRun then [.dryLog "would create event"] else [.eventCall reason]

/-- deleteResource of janitor.go: a dry-run log line, or a delete API call
with background propagation (the call is modelled as succeeding). -/
def deleteResource (cfg : Config) (o : KObj) : List Effect :=
  if cfg.dryRun then [.dryLog "would delete"] else [.deleteCall o.nspace o.name]

/-- wasNotified of janitor.go. -/
def wasNotified (o : KObj) : Bool :=
  match o.annotations with
  | none => false
  | some m => (sLookup m notifiedKey).isSome

/-- Adding the janitor/notified marker to the object's annotations
(SetAnnotations after the notification was sent). -/
def markNotified (o : KObj) : KObj :=
  match o.annotations with
  | none => { o with annotations := some [(notifiedKey, "yes")] }
  | some m => { o with annotations := some (sSet m notifiedKey "yes") }

/-- The real-mode tail of sendDeleteNotification: event creation, webhook
delivery when a webhook URL is configured, and marker placement. -/
def notifyReal (cfg : Config) (o : KObj) : KObj × List Effect :=
  (markNotified o,
    [.eventCall "DeleteNotification"] ++
      (if cfg.webhookURL = "" then [] else [.webhookCall]))

/-- sendDeleteNotification of janitor.go: in dry-run mode only a log line;
in real mode an already notified object is left alone, otherwise the event,
the webhook and the marker are produced. -/
def sendDeleteNotification (cfg : Config) (o : KObj) : KObj × List Effect :=
  if cfg.dryRun then (o, [.dryLog "would send delete notification"])
  else
    match o.annotations with
    | some m =>
      if (sLookup m notifiedKey).isSome then (o, []) else notifyReal cfg o
    | none => notifyReal cfg o

/-- The deployment time of janitor.go: the configured alternate marker when
present and RFC-3339 parseable, else the creation timestamp. -/
def deploymentTime (cfg : Config) (o : KObj) : Int :=
  if cfg.deployTimeKey ≠ "" then
    match o.annotations with
    | some m =>
      match sLookup m cfg.deployTimeKey with
      | some s =>
        match parseRFC3339 s with
        | some t => dtToNs t
        | none => o.creationNs
      | none => o.creationNs
    | none => o.creationNs
  else o.creationNs

/-! ## PVC context provider (context.go) -/

/-- One pod's volumes: each entry an optional PVC claim-name reference
(volume.PersistentVolumeClaim may be nil). -/
structure PodM where
  volumes : List (Option String)

/-- One StatefulSet: its name and its volumeClaimTemplates names. -/
structure StsM where
  name : String
  claimTemplates : List String

/-- A workload pod template's volumes (Deployments, Jobs, CronJobs). -/
abbrev TemplateVols := List (Option String)

/-- The namespace-scoped API list results consumed by the PVC context
analysis: each collection either lists successfully or fails with a
transport error. -/
structure ApiEnv where
  pods : Except String (List PodM)
  stss : Except String (List StsM)
  deploys : Except String (List TemplateVols)
  jobs : Except String (List TemplateVols)
  cronjobs : Except String (List TemplateVols)

/-- ResourceContext of types.go (the run cache field is omitted). -/
structure ResourceContext where
  pvcIsNotMounted : Bool
  pvcIsNotReferenced : Bool
deriving DecidableEq

/-- Whether some volume entry references the claim by name. -/
def volumesReference (vols : List (Option String)) (pvcName : String) : Bool :=
  vols.any (fun v => v == some pvcName)

/-- The volumeClaimTemplates name pattern of context.go: template name,
dash, StatefulSet name, dash, ordinal digits, anchored at both ends. -/
def stsClaimMatch (tmpl stsName pvcName : String) : Bool :=
  let pre := (tmpl ++ "-" ++ stsName ++ "-").toList
  let cs := pvcName.toList
  listIsPre pre cs && !(cs.drop pre.length).isEmpty &&
    (cs.drop pre.length).all Char.isDigit

/-- isPVCReferencedByDeployments of context.go. -/
def isPVCReferencedByDeployments (env : ApiEnv) (pvcName : String) :
    Except String Bool :=
  match env.deploys with
  | .error e => .error e
  | .ok ds => .ok (ds.any (fun vols => volumesReference vols pvcName))

/-- isPVCReferencedByJobs of context.go. -/
def isPVCReferencedByJobs (env : ApiEnv) (pvcName : String) :
    Except String Bool :=
  match env.jobs with
  | .error e => .error e
  | .ok js => .ok (js.any (fun vols => volumesReference vols pvcName))

/-- isPVCReferencedByCronJobs of context.go. -/
def isPVCReferencedByCronJobs (env : ApiEnv) (pvcName : String) :
    Except String Bool :=
  match env.cronjobs with
  | .error e => .error e
  | .ok cs => .ok (cs.any (fun vols => volumesReference vols pvcName))

/-- getPVCContext of context.go: pod and StatefulSet listing errors fail
the whole computation; Deployment, Job and CronJob listing errors are only
logged and treated as not referencing; the later workload checks run only
while no reference was found yet. -/
def getPVCContext (env : ApiEnv) (pvcName : String) :
    Except String ResourceContext :=
  match env.pods with
  | .error e => .error ("failed to list pods: " ++ e)
  | .ok pods =>
    let isMounted := pods.any (fun p => volumesReference p.volumes pvcName)
    match env.stss with
    | .error e => .error ("failed to list statefulsets: " ++ e)
    | .ok stss =>
      let stsRef := stss.any
        (fun sts => sts.claimTemplates.any (fun tmpl => stsClaimMatch tmpl sts.name pvcName))
      let isReferenced :=
        if stsRef then true
        else
          let dep := match isPVCReferencedByDeployments env pvcName with
            | .error _ => false
            | .ok b => b
          if dep then true
          else
            let jb := match isPVCReferencedByJobs env pvcName with
              | .error _ => false
              | .ok b => b
            if jb then true
            else
              match isPVCReferencedByCronJobs env pvcName with
              | .error _ => false
              | .ok b => b
      .ok ⟨!isMounted, !isReferenced⟩

/-- getResourceContext of context.go: built-in PVC facts for PVC kinds
(failing when the built-in analysis fails), then the configured hook, whose
facts may overwrite the built-in ones. -/
def getResourceContext (env : ApiEnv) (cfg : Config) (o : KObj) :
    Except String (List (String × Json)) :=
  let base : Except String (List (String × Json)) :=
    if lowerString o.kindUnstruct = "persistentvolumeclaim" then
      match getPVCContext env o.name with
      | .error e => .error ("failed to get PVC context: " ++ e)
      | .ok rc =>
        .ok [("pvc_is_not_mounted", .bool rc.pvcIsNotMounted),
          ("pvc_is_not_referenced", .bool rc.pvcIsNotReferenced)]
    else .ok []
  match base with
  | .error e => .error e
  | .ok ctx =>
    match cfg.hook with
    | none => .ok ctx
    | some h => .ok ((h o).foldl (fun acc kv => jSet acc kv.1 kv.2) ctx)

/-! ## The decision engine (janitor.go handleTTL / handleRules / handleExpiry) -/

/-- The per-rule loop of handleRules: rules are tried in order; the first
rule that matches is acted on; except that a matching rule whose TTL parses
to the forever sentinel is skipped with continue and evaluation proceeds to
the later rules. -/
def rulesLoop (cfg : Config) (now : Int) (resourceMap : List (String × Json))
    (ctx : List (String × Json)) (o : KObj) (counter : Counter) :
    List Rule → HRes
  | [] => ⟨none, o, counter, []⟩
  | r :: rest =>
    if r.Matches resourceMap ctx then
      match ParseTTL r.ttl with
      | .error _ => ⟨some "invalid TTL in rule", o, counter, []⟩
      | .ok d =>
        if d < 0 then rulesLoop cfg now resourceMap ctx o counter rest
        else
          let expiry := deploymentTime cfg o + d
          if now > expiry then
            ⟨none, o, bump counter (lowerString o.kindUnstruct ++ "s-deleted"),
              createEvent cfg "RuleTTLExpired" ++ deleteResource cfg o⟩
          else if 0 < cfg.deleteNotify ∧
              now > expiry - cfg.deleteNotify * secondNs ∧ ¬ wasNotified o then
            let p := sendDeleteNotification cfg o
            ⟨none, p.1, counter, p.2⟩
          else ⟨none, o, counter, []⟩
    else rulesLoop cfg now resourceMap ctx o counter rest

/-- handleRules of janitor.go: nothing to do without rules; when the
context computation fails the caller falls back to an empty context with a
warning and the run continues; rules are then evaluated in order. -/
def handleRules (cfg : Config) (env : ApiEnv) (now : Int) (o : KObj)
    (counter : Counter) : HRes :=
  if cfg.rules.isEmpty then ⟨none, o, counter, []⟩
  else
    match getResourceContext env cfg o with
    | .error _ =>
      let res := rulesLoop cfg now o.asMap [] o counter cfg.rules
      { res with effects := .warnLog "failed to get context" :: res.effects }
    | .ok ctx => rulesLoop cfg now o.asMap ctx o counter cfg.rules

/-- handleTTL of janitor.go: an object whose annotation map is nil is
returned untouched without consulting the rules; without a TTL marker the
rules are evaluated; a malformed TTL marker is a per-object error; the
forever sentinel exempts; otherwise the expiry time is computed and the
object deleted or notified about. -/
def handleTTL (cfg : Config) (env : ApiEnv) (now : Int) (o : KObj)
    (counter : Counter) : HRes :=
  match o.annotations with
  | none => ⟨none, o, counter, []⟩
  | some anns =>
    match sLookup anns ttlKey with
    | none => handleRules cfg env now o counter
    | some ttl =>
      match ParseTTL ttl with
      | .error _ => ⟨some "invalid TTL value", o, counter, []⟩
      | .ok d =>
        if d < 0 then ⟨none, o, counter, []⟩
        else
          let expiry := deploymentTime cfg o + d
          if now > expiry then
            ⟨none, o, bump counter (lowerString o.kindUnstruct ++ "s-deleted"),
              createEvent cfg "TTLExpired" ++ deleteResource cfg o⟩
          else if 0 < cfg.deleteNotify ∧
              now > expiry - cfg.deleteNotify * secondNs ∧ ¬ wasNotified o then
            let p := sendDeleteNotification cfg o
            ⟨none, p.1, counter, p.2⟩
          else ⟨none, o, counter, []⟩

/-- handleExpiry of janitor.go: reads the janitor/expires marker and parses
it with time.Parse(time.RFC3339, ...) only; it never calls ParseExpiry.  An
unparseable value is a per-object error; a past instant leads to event and
deletion; otherwise a notification may be sent. -/
def handleExpiry (cfg : Config) (now : Int) (o : KObj) (counter : Counter) :
    HRes :=
  match o.annotations with
  | none => ⟨none, o, counter, []⟩
  | some anns =>
    match sLookup anns expiryKey with
    | none => ⟨none, o, counter, []⟩
    | some s =>
      match parseRFC3339 s with
      | none => ⟨some "invalid expiry value", o, counter, []⟩
      | some t =>
        if now > dtToNs t then
          ⟨none, o, bump counter (lowerString o.kindUnstruct ++ "s-deleted"),
            createEvent cfg "ExpiryTimeReached" ++ deleteResource cfg o⟩
        else if 0 < cfg.deleteNotify ∧
            now > dtToNs t - cfg.deleteNotify * secondNs ∧ ¬ wasNotified o then
          let p := sendDeleteNotification cfg o
          ⟨none, p.1, counter, p.2⟩
        else ⟨none, o, counter, []⟩

/-- stringInSlice of resources.go. -/
def stringInSlice (str : String) (slice : List String) : Bool :=
  slice.any (fun s => s == str)

/-- matchesResourceFilter of janitor.go: type include and exclude lists,
the Namespace special case keyed by name, the cluster-scoped gate, and the
namespace include and exclude lists. -/
def matchesResourceFilter (cfg : Config) (o : KObj) : Bool :=
  let kind := o.kindFilter
  let nspace := if kind = "Namespace" then o.name else o.nspace
  let resourceType := lowerString kind ++ "s"
  if stringInSlice resourceType cfg.excludeResources then false
  else if !(cfg.includeResources.any (fun i => i == "all" || i == resourceType)) then
    false
  else if kind = "Namespace" then
    if stringInSlice o.name cfg.excludeNamespaces then false
    else cfg.includeNamespaces.any (fun i => i == "all" || i == o.name)
  else if nspace = "" then cfg.includeClusterResources
  else if stringInSlice nspace cfg.excludeNamespaces then false
  else cfg.includeNamespaces.any (fun i => i == "all" || i == nspace)

/-- handleResource of janitor.go: the filter, the resources-processed
counter, the TTL branch, and, only when the TTL branch returned no error,
the expiry branch. -/
def handleResource (cfg : Config) (env : ApiEnv) (now : Int) (o : KObj)
    (counter : Counter) : HRes :=
  if !matchesResourceFilter cfg o then ⟨none, o, counter, []⟩
  else
    let r1 := handleTTL cfg env now o (bump counter "resources-processed")
    match r1.err with
    | some e => ⟨some ("failed to handle TTL: " ++ e), r1.obj, r1.counter, r1.effects⟩
    | none =>
      let r2 := handleExpiry cfg now r1.obj r1.counter
      match r2.err with
      | some e =>
        ⟨some ("failed to handle expiry: " ++ e), r2.obj, r2.counter,
          r1.effects ++ r2.effects⟩
      | none => ⟨none, r2.obj, r2.counter, r1.effects ++ r2.effects⟩

/-! ## The dispatcher (janitor.go CleanUp and its worker pool) -/

/-- The dedup key computed by the workers of processResourcesInParallel:
the kind seen through the unstructured type assertion, the namespace and
the name. -/
def dedupKey (o : KObj) : String :=
  o.kindUnstruct ++ "/" ++ o.nspace ++ "/" ++ o.name

/-- The shared mutable dispatch state: counters, seen dedup keys, and the
accumulated effect trace. -/
structure DispatchState where
  counter : Counter
  seen : List String
  effects : List Effect

/-- processResourcesInParallel of janitor.go, modelled sequentially: the
per-item test-and-set of the dedup key happens atomically under the seen
mutex, so every interleaving of the workers dispatches each distinct key at
most once; a seen key is skipped, otherwise the decision engine runs and
per-resource errors are logged and dropped. -/
def processResources (cfg : Config) (env : ApiEnv) (now : Int) :
    List KObj → DispatchState → DispatchState
  | [], st => st
  | o :: rest, st =>
    if dedupKey o ∈ st.seen then processResources cfg env now rest st
    else
      let r := handleResource cfg env now o st.counter
      processResources cfg env now rest
        ⟨r.counter, dedupKey o :: st.seen, st.effects ++ r.effects⟩

/-- cleanupNamespaces of janitor.go: gated on namespaces being included,
filters the namespace objects, then dispatches them with a fresh dedup set
(make(map[string]bool)); the phase's seen keys are discarded afterwards. -/
def cleanupNamespaces (cfg : Config) (env : ApiEnv) (now : Int)
    (nss : List KObj) (counter : Counter) : Counter × List Effect :=
  if !(stringInSlice "namespaces" cfg.includeResources) &&
      !(stringInSlice "all" cfg.includeResources) then (counter, [])
  else
    let st := processResources cfg env now
      (nss.filter (fun o => matchesResourceFilter cfg o)) ⟨counter, [], []⟩
    (st.counter, st.effects)

/-- A discovered resource type descriptor (ResourceType of resources.go). -/
structure ResourceType where
  group : String
  version : String
  kind : String
  plural : String
  namespaced : Bool
deriving DecidableEq

/-- shouldProcessResourceType of janitor.go. -/
def shouldProcessResourceType (cfg : Config) (rt : ResourceType) : Bool :=
  if stringInSlice rt.plural cfg.excludeResources then false
  else cfg.includeResources.any (fun i => i == "all" || i == rt.plural)

/-- cleanupResourceType of janitor.go, with the listing results supplied as
input: excluded types are skipped, namespaced resources are dispatched, and
cluster-scoped resources only when IncludeClusterResources is set; the
dispatch state (and so the dedup set) is threaded through. -/
def cleanupResourceType (cfg : Config) (env : ApiEnv) (now : Int)
    (rt : ResourceType) (objs : List KObj) (st : DispatchState) :
    DispatchState :=
  if !shouldProcessResourceType cfg rt then st
  else if rt.namespaced then processResources cfg env now objs st
  else if cfg.includeClusterResources then processResources cfg env now objs st
  else st

/-- CleanUp of janitor.go with the listings supplied as inputs: the
namespace phase runs first with its own fresh dedup set, then the per-type
loop shares one dedup set (created empty in CleanUp) across all resource
types, while the counters carry through the whole run. -/
def CleanUp (cfg : Config) (env : ApiEnv) (now : Int) (nss : List KObj)
    (phases : List (ResourceType × List KObj)) : Counter × List Effect :=
  let p1 := cleanupNamespaces cfg env now nss []
  let st := phases.foldl
    (fun st ph => cleanupResourceType cfg env now ph.1 ph.2 st) ⟨p1.1, [], p1.2⟩
  (st.counter, st.effects)

/-! ## Resource type catalog deduplication (resources.go) -/

/-- filterDeprecatedAPIs of resources.go: the discovered type map drops the
legacy v1/endpoints descriptor exactly when the
discovery.k8s.io/v1/endpointslices descriptor was also discovered. -/
def filterDeprecatedAPIs (m : String → Option ResourceType) :
    String → Option ResourceType :=
  if (m "discovery.k8s.io/v1/endpointslices").isSome then
    fun k => if k = "v1/endpoints" then none else m k
  else m

/-! ## Concrete fixtures used by the claim evaluations -/

/-- A rule whose compiled predicate always evaluates to true. -/
def alwaysRule (id : String) (res : List String) (ttl : String) : Rule :=
  ⟨id, res, ttl, fun _ => .ok (.bool true)⟩

/-- A pod handle in the default namespace with the given annotations. -/
def podFixture (anns : Option (List (String × String))) : KObj :=
  ⟨.unstructured "Pod", "default", "x", 0, anns, [("kind", .str "Pod")]⟩

/-- An environment where every namespace-scoped listing succeeds empty. -/
def emptyEnv : ApiEnv := ⟨.ok [], .ok [], .ok [], .ok [], .ok []⟩

/-- A permissive configuration: everything included, no rules, real mode. -/
def baseCfg : Config := ⟨false, [], 0, "", ["all"], [], ["all"], [], false, "", none⟩

/-- The configuration of the first-match evaluation: a forever rule
followed by a one-second rule, both applying to every type. -/
def c2Cfg : Config :=
  { baseCfg with
    rules := [alwaysRule "keep-forever" ["*"] "forever", alwaysRule "b" ["*"] "1s"] }

/-- A configuration with a single one-second rule applying to every type. -/
def oneRuleCfg : Config := { baseCfg with rules := [alwaysRule "r" ["*"] "1s"] }

/-- A pod carrying a malformed TTL marker and a past expiry marker. -/
def badTTLObj : KObj :=
  podFixture (some [(ttlKey, "1x"), (expiryKey, "2020-01-01T00:00:00Z")])

/-- A typed corev1.Namespace handle named x, as listed by the namespace
phase of the dispatcher. -/
def nsTypedObj : KObj := ⟨.typedNamespace, "", "x", 0, none, []⟩

/-- The same namespace as an unstructured object of the discovered
namespaces type, as listed by the cluster-scoped type phase. -/
def nsUnstrObj : KObj := ⟨.unstructured "Namespace", "", "x", 0, none, []⟩

/-- The discovered cluster-scoped namespaces type descriptor. -/
def namespacesType : ResourceType := ⟨"", "v1", "Namespace", "namespaces", false⟩

/-- The permissive configuration with cluster-scoped processing enabled. -/
def clusterCfg : Config := { baseCfg with includeClusterResources := true }

/-! ## C1: the resource-type gate of Rule.Matches -/

/-! ## C2: first-match-wins and the forever sentinel in handleRules -/

/-! ## C4: rule evaluation for objects without a TTL marker -/

/-! ## C7: failure policy of the PVC context computation -/

/-! ## C9: deprecated type deduplication -/

/-- The discovered endpoint-slices descriptor of the C9 evaluation. -/
def endpointSlicesRT : ResourceType :=
  ⟨"discovery.k8s.io", "v1", "EndpointSlice", "endpointslices", true⟩

/-- The discovered pods descriptor of the C9 evaluation. -/
def podsRT : ResourceType := ⟨"", "v1", "Pod", "pods", true⟩

/-- The discovered legacy endpoints descriptor of the C9 evaluation. -/
def endpointsRT : ResourceType := ⟨"", "v1", "Endpoints", "endpoints", true⟩

/-- A discovered type map containing endpoints, its successor and pods. -/
def c9Map : String → Option ResourceType := fun k =>
  if k = "discovery.k8s.io/v1/endpointslices" then some endpointSlicesRT
  else if k = "v1/endpoints" then some endpointsRT
  else if k = "v1/pods" then some podsRT
  else none

/-- The object of the C10 evaluation: a date-only expiry marker. -/
def c10Obj : KObj := podFixture (some [(expiryKey, "2024-01-01")])

/-! ## Witness evaluations at concrete inputs -/

/-- A pod whose TTL branch is exempt (forever) and whose expiry marker lies
in the past. -/
def foreverExpObj : KObj :=
  podFixture (some [(ttlKey, "forever"), (expiryKey, "2020-01-01T00:00:00Z")])

/-- A second, distinct pod without annotations. -/
def otherPodObj : KObj :=
  ⟨.unstructured "Pod", "default", "y", 0, none, [("kind", .str "Pod")]⟩

/-- A pod with an expired one-second TTL marker. -/
def expiredTTLObj : KObj := podFixture (some [(ttlKey, "1s")])

/-- A PVC handle in the default namespace. -/
def pvcObj : KObj :=
  ⟨.unstructured "PersistentVolumeClaim", "default", "p", 0, some [],
    [("kind", .str "PersistentVolumeClaim")]⟩

/-- An environment whose pod listing fails. -/
def podsErrEnv : ApiEnv := ⟨.error "boom", .ok [], .ok [], .ok [], .ok []⟩

/-- An environment whose StatefulSet listing fails. -/
def stsErrEnv : ApiEnv := ⟨.ok [], .error "boom", .ok [], .ok [], .ok []⟩

/-! ## Theorems -/

theorem dVal_digitChar {k : Nat} (h : k < 10) : dVal (digitChar k) = k := by
  interval_cases k <;> rfl

theorem isDigit_digitChar {k : Nat} (h : k < 10) : (digitChar k).isDigit = true := by
  interval_cases k <;> rfl

theorem natDigitsAux_fuel {fuel₁ fuel₂ n : Nat} (h1 : n < fuel₁) (h2 : n < fuel₂) :
    natDigitsAux fuel₁ n = natDigitsAux fuel₂ n := by
  induction n using Nat.strong_induction_on generalizing fuel₁ fuel₂ with
  | _ n ih =>
    match fuel₁, fuel₂ with
    | f + 1, g + 1 =>
      simp only [natDigitsAux]
      split
      · rfl
      next h =>
        have hlt : n / 10 < n := Nat.div_lt_self (by omega) (by omega)
        have e1 : natDigitsAux f (n / 10) = natDigitsAux (n / 10 + 1) (n / 10) :=
          ih (n / 10) hlt (by omega) (by omega)
        have e2 : natDigitsAux g (n / 10) = natDigitsAux (n / 10 + 1) (n / 10) :=
          ih (n / 10) hlt (by omega) (by omega)
        rw [e1, e2]

/-- The defining equation of `natDigits`, independent of fuel. -/
theorem natDigits_eq (n : Nat) :
    natDigits n = if n < 10 then [digitChar n]
      else natDigits (n / 10) ++ [digitChar (n % 10)] := by
  show natDigitsAux (n + 1) n = _
  simp only [natDigitsAux]
  split
  · rfl
  next h =>
    rw [natDigitsAux_fuel
      (show n / 10 < n from Nat.div_lt_self (by omega) (by omega)) (Nat.lt_succ_self _)]
    rfl

theorem natDigits_ne_nil (n : Nat) : natDigits n ≠ [] := by
  rw [natDigits_eq]
  split <;> simp

theorem natDigits_all_digit (n : Nat) : ∀ c ∈ natDigits n, c.isDigit = true := by
  induction n using Nat.strong_induction_on with
  | _ n ih =>
    rw [natDigits_eq]
    split
    next h =>
      intro c hc
      simp only [List.mem_singleton] at hc
      subst hc
      exact isDigit_digitChar h
    next h =>
      intro c hc
      rcases List.mem_append.mp hc with h1 | h2
      · exact ih (n / 10) (Nat.div_lt_self (by omega) (by omega)) c h1
      · simp only [List.mem_singleton] at h2
        subst h2
        exact isDigit_digitChar (Nat.mod_lt _ (by omega))

theorem digitsVal_append_singleton (cs : List Char) (c : Char) :
    digitsVal (cs ++ [c]) = digitsVal cs * 10 + dVal c := by
  simp [digitsVal, List.foldl_append]

theorem digitsVal_natDigits (n : Nat) : digitsVal (natDigits n) = n := by
  induction n using Nat.strong_induction_on with
  | _ n ih =>
    rw [natDigits_eq]
    split
    next h =>
      simp [digitsVal, dVal_digitChar h]
    next h =>
      rw [digitsVal_append_singleton,
        ih (n / 10) (Nat.div_lt_self (by omega) (by omega)),
        dVal_digitChar (Nat.mod_lt _ (by omega))]
      omega

theorem wrap64_eq_self {x : Int} (h1 : -9223372036854775808 ≤ x) (h2 : x ≤ int64Max) :
    wrap64 x = x := by
  unfold wrap64
  unfold int64Max at h2
  omega

theorem fmtLoop_eq_foldl (units : List (Int × String)) :
    ∀ (acc : String) (r : Int), 0 ≤ r → (∀ u ∈ units, 0 < u.1) →
    fmtLoop units acc r =
      (decompLoop units r).foldl
        (fun acc vu => if 0 < vu.1 then acc ++ intToStr vu.1 ++ vu.2 else acc) acc := by
  induction units with
  | nil =>
    intro acc r _ _
    rfl
  | cons u rest ih =>
    intro acc r hr hpos
    obtain ⟨ud, us⟩ := u
    have hud : 0 < ud := hpos (ud, us) (List.mem_cons_self _ _)
    have htail : ∀ x ∈ rest, 0 < x.1 := fun x hx => hpos x (List.mem_cons_of_mem _ hx)
    by_cases hv : 0 < r / ud
    · simp only [fmtLoop, decompLoop, List.foldl_cons, if_pos hv]
      exact ih _ _ (Int.emod_nonneg r (ne_of_gt hud)) htail
    · have hv0 : r / ud = 0 :=
        le_antisymm (not_lt.mp hv) (Int.ediv_nonneg hr (le_of_lt hud))
      have hmod : r % ud = r := by
        have hdm := Int.ediv_add_emod r ud
        rw [hv0] at hdm
        omega
      simp only [fmtLoop, decompLoop, List.foldl_cons, if_neg hv, hv0, hmod]
      exact ih acc r hr htail

theorem formatDurationPos_eq_render {d : Int} (hd : 0 ≤ d) :
    formatDurationPos d =
      (if renderChunks (decompLoop unitsTable d) = "" then "0s"
       else renderChunks (decompLoop unitsTable d)) := by
  have h := fmtLoop_eq_foldl unitsTable "" d hd
    (by intro u hu; fin_cases hu <;> norm_num [weekNs, dayNs, hourNs, minuteNs, secondNs])
  simp only [formatDurationPos, renderChunks, h]

/-! ## Round-trip lemmas for ParseTTL and FormatDuration -/

theorem ttlString_ne_unlimited (n : Nat) (u : Char) :
    natToString n ++ String.mk [u] ≠ ttlUnlimited := by
  intro h
  have hl : natDigits n ++ [u] = ['f', 'o', 'r', 'e', 'v', 'e', 'r'] := by
    have hq := congrArg String.toList h
    have hforever : (ttlUnlimited : String).toList = ['f', 'o', 'r', 'e', 'v', 'e', 'r'] := rfl
    rw [hforever] at hq
    simpa [natToString, String.toList] using hq
  obtain ⟨c, cs, hc⟩ : ∃ c cs, natDigits n = c :: cs := by
    cases hnd : natDigits n with
    | nil => exact absurd hnd (natDigits_ne_nil n)
    | cons c cs => exact ⟨c, cs, rfl⟩
  rw [hc, List.cons_append] at hl
  have hcf : c = 'f' := (List.cons.injEq _ _ _ _ ▸ hl).1
  have hdig := natDigits_all_digit n c (hc ▸ List.mem_cons_self c cs)
  rw [hcf] at hdig
  exact absurd hdig (by decide)

theorem ttlMatch_digits (n : Nat) {u : Char} (hu : u ∈ unitChars) :
    ttlMatch (natDigits n ++ [u]) = some (natDigits n, u) := by
  unfold ttlMatch
  rw [List.reverse_append]
  simp only [List.reverse_cons, List.reverse_nil, List.nil_append, List.singleton_append]
  rw [if_pos, List.reverse_reverse]
  have h1 : unitChars.contains u = true := List.elem_eq_true_of_mem hu
  have h2 : (natDigits n).reverse.isEmpty = false := by
    cases hnd : (natDigits n).reverse with
    | nil => exact absurd (List.reverse_eq_nil_iff.mp hnd) (natDigits_ne_nil n)
    | cons c cs => rfl
  have h3 : (natDigits n).reverse.all Char.isDigit = true :=
    List.all_eq_true.mpr fun c hc => natDigits_all_digit n c (List.mem_reverse.mp hc)
  rw [h1, h2, h3]
  rfl

theorem atoiDigits_natDigits {n : Nat} (h : (n : Int) ≤ int64Max) :
    atoiDigits (natDigits n) = .ok (n : Int) := by
  unfold atoiDigits
  rw [if_pos ⟨natDigits_ne_nil n, List.all_eq_true.mpr (natDigits_all_digit n)⟩,
    digitsVal_natDigits, if_pos h]

theorem ParseTTL_digits_unit (n : Nat) (u : Char) (mult : Int) (hu : u ∈ unitChars)
    (htu : timeUnit u = some mult) (hpos : 0 < mult) (hb : (n : Int) * mult ≤ int64Max) :
    ParseTTL (natToString n ++ String.mk [u]) = .ok ((n : Int) * mult) := by
  have hn : (n : Int) ≤ int64Max := by
    calc (n : Int) ≤ (n : Int) * mult :=
          le_mul_of_one_le_right (Int.ofNat_nonneg n) hpos
      _ ≤ int64Max := hb
  have htl : (natToString n ++ String.mk [u]).toList = natDigits n ++ [u] := by
    simp [natToString, String.toList]
  unfold ParseTTL
  rw [if_neg (ttlString_ne_unlimited n u), htl]
  simp only [ttlMatch_digits n hu, atoiDigits_natDigits hn, htu]
  have hnn : (0 : Int) ≤ (n : Int) * mult := mul_nonneg (Int.ofNat_nonneg n) hpos.le
  rw [wrap64_eq_self (le_trans (by norm_num) hnn) hb]

theorem unitNsOf_w : unitNsOf "w" = weekNs := rfl

theorem unitNsOf_d : unitNsOf "d" = dayNs := rfl

theorem unitNsOf_h : unitNsOf "h" = hourNs := rfl

theorem unitNsOf_m : unitNsOf "m" = minuteNs := rfl

theorem unitNsOf_s : unitNsOf "s" = secondNs := rfl

theorem chunksDuration_decomp {d : Int} (hmod : d % secondNs = 0) :
    chunksDuration (decompLoop unitsTable d) = d := by
  simp only [unitsTable, decompLoop, chunksDuration, List.map_cons, List.map_nil,
    List.sum_cons, List.sum_nil, unitNsOf_w, unitNsOf_d, unitNsOf_h, unitNsOf_m, unitNsOf_s,
    weekNs, dayNs, hourNs, minuteNs, secondNs]
  unfold secondNs at hmod
  omega

theorem parseRFC3339_of_minuteFmt {s : String} {t : DateT}
    (h : parseMinuteFmt s = some t) : parseRFC3339 s = none := by
  unfold parseMinuteFmt at h
  split at h
  next y1 y2 y3 y4 a1 a2 b1 b2 h1 h2 i1 i2 heq =>
    unfold parseRFC3339
    rw [heq]
    rfl
  next => exact absurd h (by simp)

theorem parseRFC3339_of_dateFmt {s : String} {t : DateT}
    (h : parseDateFmt s = some t) : parseRFC3339 s = none := by
  unfold parseDateFmt at h
  split at h
  next y1 y2 y3 y4 a1 a2 b1 b2 heq =>
    unfold parseRFC3339
    rw [heq]
    rfl
  next => exact absurd h (by simp)

/-- C1: the claim that the gate uses the lower-cased kind fails on the
code: Rule.Matches builds the plural type name as kind + "s" without
lowercasing, so a resource of kind Pod does not pass the gate of a rule
whose resources list contains "pods" even though its predicate holds, while
"Pods" and the wildcard do pass. -/
theorem c1_gate_not_lowercased :
    (alwaysRule "a" ["pods"] "7d").Matches [("kind", .str "Pod")] [] = false ∧
    (alwaysRule "a" ["Pods"] "7d").Matches [("kind", .str "Pod")] [] = true ∧
    (alwaysRule "a" ["*"] "7d").Matches [("kind", .str "Pod")] [] = true :=
  ⟨rfl, rfl, rfl⟩

/-- C2: the claim fails on the code: when the first matching rule has TTL
forever, handleRules skips it with continue and applies the next matching
rule, so the aged pod is deleted (pods-deleted counter and a delete call)
instead of being exempted. -/
theorem c2_forever_rule_not_first_match_wins :
    (handleRules c2Cfg emptyEnv 1000000000000 (podFixture (some [])) []).counter
      = [("pods-deleted", 1)] ∧
    Effect.deleteCall "default" "x" ∈
      (handleRules c2Cfg emptyEnv 1000000000000 (podFixture (some [])) []).effects :=
  ⟨rfl, by decide⟩

/-- C4: the claim fails on the code for objects with a nil annotation map:
handleTTL returns such an object untouched without evaluating any rule,
while the same object with a present (empty) annotation map is matched by
the rule and deleted. -/
theorem c4_nil_annotations_skip_rules :
    handleTTL oneRuleCfg emptyEnv 1000000000000 (podFixture none) []
      = ⟨none, podFixture none, [], []⟩ ∧
    (handleTTL oneRuleCfg emptyEnv 1000000000000 (podFixture (some [])) []).counter
      = [("pods-deleted", 1)] ∧
    Effect.deleteCall "default" "x" ∈
      (handleTTL oneRuleCfg emptyEnv 1000000000000 (podFixture (some [])) []).effects :=
  ⟨rfl, rfl, by decide⟩

/-! ## C3: independence of the absolute-expiry branch -/

theorem ParseTTL_forever : ParseTTL ttlUnlimited = .ok (-1) := rfl

theorem cget_bump_self (c : Counter) (k : String) :
    cget (bump c k) k = cget c k + 1 := by
  induction c with
  | nil => simp [bump, cget]
  | cons kv rest ih =>
    obtain ⟨k', v⟩ := kv
    by_cases h : k' = k
    · subst h
      simp [bump, cget]
    · simp [bump, cget, h, ih]

/-- C3 counterexample: a malformed TTL marker makes handleResource return
the per-object TTL error before the expiry branch ever runs: although the
expiry marker lies far in the past, nothing is deleted and only the
processed counter changes. -/
theorem c3_counterexample :
    (handleResource baseCfg emptyEnv 1800000000000000000 badTTLObj []).err.isSome = true ∧
    (handleResource baseCfg emptyEnv 1800000000000000000 badTTLObj []).effects = [] ∧
    (handleResource baseCfg emptyEnv 1800000000000000000 badTTLObj []).counter
      = [("resources-processed", 1)] :=
  ⟨rfl, rfl, rfl⟩

/-- C3 (amended): the expiry branch runs exactly when the TTL branch
returns no error.  (a) For an object whose TTL branch is clean (here a
forever TTL marker) and whose RFC-3339 expiry marker lies in the past, the
expiry branch deletes the object.  (b) A malformed TTL marker yields a
per-object error, produces no effect at all (so no deletion), and leaves
only the processed counter bumped.  (c) Such an error does not abort the
dispatch: a subsequent resource in the same batch is still processed and
counted. -/
theorem c3_expiry_branch_gated_on_ttl_success :
    (∀ (cfg : Config) (env : ApiEnv) (now : Int) (o : KObj)
      (anns : List (String × String)) (c : Counter) (s : String) (t : DateT),
      o.annotations = some anns →
      matchesResourceFilter cfg o = true →
      cfg.dryRun = false →
      sLookup anns ttlKey = some ttlUnlimited →
      sLookup anns expiryKey = some s →
      parseRFC3339 s = some t →
      now > dtToNs t →
      Effect.deleteCall o.nspace o.name ∈ (handleResource cfg env now o c).effects ∧
      (handleResource cfg env now o c).err = none) ∧
    (∀ (cfg : Config) (env : ApiEnv) (now : Int) (o : KObj)
      (anns : List (String × String)) (c : Counter) (tb : String),
      o.annotations = some anns →
      matchesResourceFilter cfg o = true →
      sLookup anns ttlKey = some tb →
      (ParseTTL tb).isOk = false →
      (handleResource cfg env now o c).err.isSome = true ∧
      (handleResource cfg env now o c).effects = [] ∧
      (handleResource cfg env now o c).counter = bump c "resources-processed") ∧
    (∀ (cfg : Config) (env : ApiEnv) (now : Int) (o o2 : KObj)
      (anns : List (String × String)) (c : Counter) (tb : String),
      o.annotations = some anns →
      matchesResourceFilter cfg o = true →
      sLookup anns ttlKey = some tb →
      (ParseTTL tb).isOk = false →
      o2.annotations = none →
      matchesResourceFilter cfg o2 = true →
      dedupKey o2 ≠ dedupKey o →
      cget (processResources cfg env now [o, o2] ⟨c, [], []⟩).counter
          "resources-processed"
        = cget c "resources-processed" + 2) := by
  have hbad : ∀ (cfg : Config) (env : ApiEnv) (now : Int) (o : KObj)
      (anns : List (String × String)) (c : Counter) (tb : String),
      o.annotations = some anns →
      matchesResourceFilter cfg o = true →
      sLookup anns ttlKey = some tb →
      (ParseTTL tb).isOk = false →
      handleResource cfg env now o c =
        ⟨some ("failed to handle TTL: " ++ "invalid TTL value"), o,
          bump c "resources-processed", []⟩ := by
    intro cfg env now o anns c tb ho hf httl hparse
    obtain ⟨e, he⟩ : ∃ e, ParseTTL tb = .error e := by
      cases h : ParseTTL tb with
      | ok v => rw [h] at hparse; simp [Except.isOk, Except.toBool] at hparse
      | error e => exact ⟨e, rfl⟩
    simp only [handleResource, hf, Bool.not_true, Bool.false_eq_true, if_false,
      handleTTL, ho, httl, he]
  refine ⟨?_, ?_, ?_⟩
  · intro cfg env now o anns c s t ho hf hdry httl hexp hp hnow
    simp only [handleResource, hf, Bool.not_true, Bool.false_eq_true, if_false,
      handleTTL, ho, httl, ParseTTL_forever]
    norm_num
    simp only [handleExpiry, ho, hexp, hp, if_pos hnow, createEvent, deleteResource,
      hdry, Bool.false_eq_true, if_false]
    simp
  · intro cfg env now o anns c tb ho hf httl hparse
    rw [hbad cfg env now o anns c tb ho hf httl hparse]
    exact ⟨rfl, rfl, rfl⟩
  · intro cfg env now o o2 anns c tb ho hf httl hparse ho2 hf2 hk
    simp only [processResources, List.mem_nil_iff, if_false]
    rw [hbad cfg env now o anns c tb ho hf httl hparse]
    simp only [List.mem_singleton, if_neg hk,
      handleResource, hf2, Bool.not_true, Bool.false_eq_true, if_false,
      handleTTL, ho2, handleExpiry]
    simp [cget_bump_self]

/-! ## C5: dedup of the dispatcher -/

theorem mem_seen_processResources (cfg : Config) (env : ApiEnv) (now : Int) :
    ∀ (xs : List KObj) (st : DispatchState) (k : String),
    k ∈ st.seen ∨ k ∈ xs.map dedupKey →
    k ∈ (processResources cfg env now xs st).seen := by
  intro xs
  induction xs with
  | nil =>
    intro st k h
    rcases h with h | h
    · exact h
    · simp at h
  | cons o rest ih =>
    intro st k h
    simp only [processResources]
    split
    next hin =>
      apply ih
      rcases h with h | h
      · exact .inl h
      · rcases List.mem_cons.mp h with h | h
        · exact .inl (h ▸ hin)
        · exact .inr h
    next hnin =>
      apply ih
      rcases h with h | h
      · exact .inl (List.mem_cons_of_mem _ h)
      · rcases List.mem_cons.mp h with h | h
        · exact .inl (h ▸ List.mem_cons_self _ _)
        · exact .inr h

theorem processResources_skip_dup (cfg : Config) (env : ApiEnv) (now : Int)
    (r : KObj) :
    ∀ (xs : List KObj) (st : DispatchState),
    dedupKey r ∈ st.seen ∨ dedupKey r ∈ xs.map dedupKey →
    processResources cfg env now (xs ++ [r]) st =
      processResources cfg env now xs st := by
  intro xs
  induction xs with
  | nil =>
    intro st h
    rcases h with h | h
    · simp only [List.nil_append, processResources, if_pos h]
    · simp at h
  | cons o rest ih =>
    intro st h
    simp only [List.cons_append, processResources]
    split
    next hin =>
      apply ih
      rcases h with h | h
      · exact .inl h
      · rcases List.mem_cons.mp h with h | h
        · exact .inl (h ▸ hin)
        · exact .inr h
    next hnin =>
      apply ih
      rcases h with h | h
      · exact .inl (List.mem_cons_of_mem _ h)
      · rcases List.mem_cons.mp h with h | h
        · exact .inl (h ▸ List.mem_cons_self _ _)
        · exact .inr h

/-- C5 counterexample: the same namespace identity (kind Namespace, cluster
scope, name x) is dispatched once by the namespace phase, which uses its
own fresh dedup set and keys typed objects under the kind Unknown, and once
by the cluster-scoped namespaces type of the main phase; the object is
decided twice within one run, so the processed counter reaches two. -/
theorem c5_counterexample :
    (CleanUp clusterCfg emptyEnv 0 [nsTypedObj] [(namespacesType, [nsUnstrObj])]).1
      = [("resources-processed", 2)] := rfl

/-- C5 (amended): within one dispatch batch, and across the consecutive
dispatch calls of the resource-type phase, which share one dedup set and
one counter map, a resource whose dedup key was already dispatched is
skipped: appending it changes neither the counters, the seen set, nor the
effect trace.  The namespace phase, however, dispatches against its own
fresh dedup set. -/
theorem c5_dedup_within_shared_phase :
    (∀ (cfg : Config) (env : ApiEnv) (now : Int) (xs : List KObj) (r : KObj)
      (st : DispatchState),
      dedupKey r ∈ st.seen ∨ dedupKey r ∈ xs.map dedupKey →
      processResources cfg env now (xs ++ [r]) st =
        processResources cfg env now xs st) ∧
    (∀ (cfg : Config) (env : ApiEnv) (now : Int) (xs ys : List KObj) (r : KObj)
      (st : DispatchState),
      dedupKey r ∈ xs.map dedupKey →
      processResources cfg env now (ys ++ [r])
          (processResources cfg env now xs st) =
        processResources cfg env now ys (processResources cfg env now xs st)) := by
  refine ⟨fun cfg env now xs r st h => processResources_skip_dup cfg env now r xs st h,
    fun cfg env now xs ys r st h => ?_⟩
  exact processResources_skip_dup cfg env now r ys _
    (.inl (mem_seen_processResources cfg env now xs st _ (.inr h)))

/-- C7 counterexample: with pods and StatefulSets listing fine and the
Deployments, Jobs and CronJobs listings all failing, getPVCContext still
succeeds with a fully computed context: those errors are swallowed, which
refutes that any of the five listings failing fails the whole context
computation. -/
theorem c7_counterexample :
    getPVCContext ⟨.ok [], .ok [], .error "boom", .ok [], .ok []⟩ "pvc-a"
      = .ok ⟨true, true⟩ := rfl

/-- C7 (amended): only the pod and StatefulSet listings are fatal to the
context computation: an error on either fails the whole computation with no
context value; Deployment, Job and CronJob listing errors are swallowed and
treated as not referencing; and the caller falls back on a context error to
evaluating the rules under an empty context with a logged warning, without
aborting. -/
theorem c7_pvc_context_failure_policy :
    (∀ (env : ApiEnv) (pvcName : String) (e : String),
      env.pods = .error e → (getPVCContext env pvcName).isOk = false) ∧
    (∀ (env : ApiEnv) (pvcName : String) (pods : List PodM) (e : String),
      env.pods = .ok pods → env.stss = .error e →
      (getPVCContext env pvcName).isOk = false) ∧
    (∀ (pods : List PodM) (stss : List StsM) (e1 e2 e3 : String) (pvcName : String),
      (getPVCContext ⟨.ok pods, .ok stss, .error e1, .error e2, .error e3⟩
        pvcName).isOk = true) ∧
    (∀ (cfg : Config) (env : ApiEnv) (now : Int) (o : KObj) (c : Counter),
      cfg.rules.isEmpty = false →
      (getResourceContext env cfg o).isOk = false →
      handleRules cfg env now o c =
        { rulesLoop cfg now o.asMap [] o c cfg.rules with
          effects := .warnLog "failed to get context" ::
            (rulesLoop cfg now o.asMap [] o c cfg.rules).effects }) := by
  refine ⟨?_, ?_, ?_, ?_⟩
  · intro env pvcName e h
    simp [getPVCContext, h, Except.isOk, Except.toBool]
  · intro env pvcName pods e h1 h2
    simp [getPVCContext, h1, h2, Except.isOk, Except.toBool]
  · intro pods stss e1 e2 e3 pvcName
    simp only [getPVCContext, isPVCReferencedByDeployments, isPVCReferencedByJobs,
      isPVCReferencedByCronJobs, Except.isOk, Except.toBool]
  · intro cfg env now o c h1 h2
    obtain ⟨e, he⟩ : ∃ e, getResourceContext env cfg o = .error e := by
      cases h : getResourceContext env cfg o with
      | ok v => rw [h] at h2; simp [Except.isOk, Except.toBool] at h2
      | error e => exact ⟨e, rfl⟩
    simp only [handleRules, h1, Bool.false_eq_true, if_false, he]

/-- C9: filterDeprecatedAPIs removes the v1/endpoints descriptor exactly
when the discovery.k8s.io/v1/endpointslices descriptor is present, keeps it
in place when the successor is absent, and leaves every other key of the
discovered type map untouched. -/
theorem c9_filter_deprecated_exact (m : String → Option ResourceType) :
    ((m "discovery.k8s.io/v1/endpointslices").isSome = true →
      filterDeprecatedAPIs m "v1/endpoints" = none) ∧
    ((m "discovery.k8s.io/v1/endpointslices").isSome = false →
      filterDeprecatedAPIs m "v1/endpoints" = m "v1/endpoints") ∧
    (∀ k, k ≠ "v1/endpoints" → filterDeprecatedAPIs m k = m k) := by
  unfold filterDeprecatedAPIs
  refine ⟨fun h => ?_, fun h => ?_, fun k hk => ?_⟩
  · rw [if_pos h]
    simp
  · rw [if_neg (by simp [h])]
  · split
    · simp [hk]
    · rfl

theorem c9_filter_deprecated_witness :
    filterDeprecatedAPIs c9Map "v1/endpoints" = none ∧
    filterDeprecatedAPIs c9Map "v1/pods" = c9Map "v1/pods" :=
  ⟨(c9_filter_deprecated_exact c9Map).1 rfl,
    (c9_filter_deprecated_exact c9Map).2.2 "v1/pods" (by decide)⟩

/-! ## C10: the expiry branch parses RFC-3339 only -/

theorem parseMinuteFmt_of_dateFmt {s : String} {t : DateT}
    (h : parseDateFmt s = some t) : parseMinuteFmt s = none := by
  unfold parseDateFmt at h
  split at h
  next y1 y2 y3 y4 a1 a2 b1 b2 heq =>
    unfold parseMinuteFmt
    rw [heq]
    rfl
  next => exact absurd h (by simp)

/-- C10: handleExpiry parses the expiry marker with the RFC-3339 layout
only and never calls ParseExpiry: an expiry value written in either of the
two other layouts ParseExpiry accepts (minute precision or date only)
yields the per-object invalid-expiry error with no deletion and no counter
change, regardless of how far in the past the denoted instant lies, even
though ParseExpiry accepts the very same value. -/
theorem c10_expiry_rfc3339_only (cfg : Config) (now : Int) (o : KObj)
    (anns : List (String × String)) (c : Counter) (s : String) (t : DateT)
    (ho : o.annotations = some anns)
    (hexp : sLookup anns expiryKey = some s)
    (hfmt : parseMinuteFmt s = some t ∨ parseDateFmt s = some t) :
    (handleExpiry cfg now o c).err.isSome = true ∧
    ParseExpiry s = some t ∧
    (handleExpiry cfg now o c).effects = [] ∧
    (handleExpiry cfg now o c).counter = c := by
  have hrfc : parseRFC3339 s = none := by
    rcases hfmt with h | h
    · exact parseRFC3339_of_minuteFmt h
    · exact parseRFC3339_of_dateFmt h
  have hpe : ParseExpiry s = some t := by
    unfold ParseExpiry
    rw [hrfc]
    rcases hfmt with h | h
    · rw [h]
    · rw [parseMinuteFmt_of_dateFmt h, h]
  have hh : handleExpiry cfg now o c = ⟨some "invalid expiry value", o, c, []⟩ := by
    simp only [handleExpiry, ho, hexp, hrfc]
  rw [hh]
  exact ⟨rfl, hpe, rfl, rfl⟩

theorem c10_expiry_rfc3339_only_witness :
    (handleExpiry baseCfg 1800000000000000000 c10Obj []).err.isSome = true ∧
    ParseExpiry "2024-01-01" = some ⟨2024, 1, 1, 0, 0, 0, 0⟩ ∧
    (handleExpiry baseCfg 1800000000000000000 c10Obj []).effects = [] ∧
    (handleExpiry baseCfg 1800000000000000000 c10Obj []).counter = [] :=
  c10_expiry_rfc3339_only baseCfg 1800000000000000000 c10Obj
    [(expiryKey, "2024-01-01")] [] "2024-01-01" ⟨2024, 1, 1, 0, 0, 0, 0⟩
    rfl rfl (.inr rfl)

/-! ## C8: ParseTTL / FormatDuration round trip -/

theorem c8Aux (n : Nat) (u : Char) (mult : Int) (huc : u ∈ unitChars)
    (htu : timeUnit u = some mult) (hpos : 0 < mult)
    (hdvd : mult % secondNs = 0) (hb : (n : Int) * mult ≤ int64Max) :
    ParseTTL (natToString n ++ String.mk [u]) = .ok ((n : Int) * mult) ∧
    FormatDuration ((n : Int) * mult) =
      (if renderChunks (decompLoop unitsTable ((n : Int) * mult)) = "" then "0s"
       else renderChunks (decompLoop unitsTable ((n : Int) * mult))) ∧
    chunksDuration (decompLoop unitsTable ((n : Int) * mult)) = (n : Int) * mult := by
  have hd : (0 : Int) ≤ (n : Int) * mult := mul_nonneg (Int.ofNat_nonneg n) hpos.le
  refine ⟨ParseTTL_digits_unit n u mult huc htu hpos hb, ?_, ?_⟩
  · unfold FormatDuration
    rw [if_neg (not_lt.mpr hd)]
    exact formatDurationPos_eq_render hd
  · apply chunksDuration_decomp
    have hdv : secondNs ∣ mult := Int.dvd_of_emod_eq_zero hdvd
    exact Int.emod_eq_zero_of_dvd (hdv.mul_left (n : Int))

/-- C8 (amended): for every count n and every unit of the TimeUnit table
whose product fits the 64-bit nanosecond range, ParseTTL on the rendered
TTL string succeeds with exactly n times the unit duration, and
FormatDuration renders that duration as the greedy canonical decomposition
with the largest unit first (weeks, days, hours, minutes, seconds), whose
chunks denote the very same duration; the claim's example 90m parses to
5400 seconds and formats as 1h30m, and the zero duration renders as 0s. -/
theorem c8_parse_format_roundtrip :
    (∀ (n : Nat) (u : Char) (mult : Int), (u, mult) ∈ timeUnitList →
      (n : Int) * mult ≤ int64Max →
      ParseTTL (natToString n ++ String.mk [u]) = .ok ((n : Int) * mult) ∧
      FormatDuration ((n : Int) * mult) =
        (if renderChunks (decompLoop unitsTable ((n : Int) * mult)) = "" then "0s"
         else renderChunks (decompLoop unitsTable ((n : Int) * mult))) ∧
      chunksDuration (decompLoop unitsTable ((n : Int) * mult)) = (n : Int) * mult) ∧
    ParseTTL "90m" = .ok 5400000000000 ∧
    FormatDuration 5400000000000 = "1h30m" ∧
    FormatDuration 0 = "0s" := by
  refine ⟨?_, rfl, by decide, rfl⟩
  intro n u mult hu hb
  simp only [timeUnitList, List.mem_cons, List.not_mem_nil, or_false,
    Prod.mk.injEq] at hu
  rcases hu with ⟨rfl, rfl⟩ | ⟨rfl, rfl⟩ | ⟨rfl, rfl⟩ | ⟨rfl, rfl⟩ | ⟨rfl, rfl⟩ <;>
    exact c8Aux n _ _ (by decide) rfl (by decide) (by decide) hb

/-- C8 counterexample: the claim quantifies over every non-negative integer
count, but ParseTTL "9223372036854775808s" (the count 2^63) fails: the Atoi
step reports a range error for values beyond the 64-bit integer range, so
ParseTTL does not succeed on every such TTL string. -/
theorem c8_counterexample :
    (ParseTTL "9223372036854775808s").isOk = false := rfl

theorem c8_parse_format_roundtrip_witness :
    ParseTTL (natToString 90 ++ String.mk ['m']) = .ok ((90 : Int) * minuteNs) ∧
    chunksDuration (decompLoop unitsTable ((90 : Int) * minuteNs))
      = (90 : Int) * minuteNs := by
  have h := c8_parse_format_roundtrip.1 90 'm' minuteNs (by decide) (by decide)
  exact ⟨h.1, h.2.2⟩

/-! ## C6: the dry-run frame property -/

theorem set_dryRun_dryRun (cfg : Config) (b : Bool) :
    ({ cfg with dryRun := b } : Config).dryRun = b := rfl

theorem set_dryRun_rules (cfg : Config) (b : Bool) :
    ({ cfg with dryRun := b } : Config).rules = cfg.rules := rfl

theorem set_dryRun_deleteNotify (cfg : Config) (b : Bool) :
    ({ cfg with dryRun := b } : Config).deleteNotify = cfg.deleteNotify := rfl

theorem deploymentTime_set_dryRun (cfg : Config) (b : Bool) (o : KObj) :
    deploymentTime { cfg with dryRun := b } o = deploymentTime cfg o := rfl

theorem getResourceContext_set_dryRun (env : ApiEnv) (cfg : Config) (b : Bool)
    (o : KObj) :
    getResourceContext env { cfg with dryRun := b } o =
      getResourceContext env cfg o := rfl

theorem matchesResourceFilter_set_dryRun (cfg : Config) (b : Bool) (o : KObj) :
    matchesResourceFilter { cfg with dryRun := b } o =
      matchesResourceFilter cfg o := rfl

theorem createEvent_dry (cfg : Config) (r : String) :
    createEvent { cfg with dryRun := true } r = [.dryLog "would create event"] := rfl

theorem createEvent_real (cfg : Config) (r : String) :
    createEvent { cfg with dryRun := false } r = [.eventCall r] := rfl

theorem deleteResource_dry (cfg : Config) (o : KObj) :
    deleteResource { cfg with dryRun := true } o = [.dryLog "would delete"] := rfl

theorem deleteResource_real (cfg : Config) (o : KObj) :
    deleteResource { cfg with dryRun := false } o = [.deleteCall o.nspace o.name] := rfl

theorem sendNotify_dry (cfg : Config) (o : KObj) :
    sendDeleteNotification { cfg with dryRun := true } o =
      (o, [.dryLog "would send delete notification"]) := rfl

theorem sendNotify_real_obj (cfg : Config) (o : KObj) :
    (sendDeleteNotification { cfg with dryRun := false } o).1 = o ∨
    (sendDeleteNotification { cfg with dryRun := false } o).1 = markNotified o := by
  unfold sendDeleteNotification notifyReal
  simp only [set_dryRun_dryRun, Bool.false_eq_true, if_false]
  cases o.annotations with
  | none => exact .inr rfl
  | some m =>
    by_cases h : (sLookup m notifiedKey).isSome
    · simp [h]
    · simp [h]

theorem sLookup_sSet_ne (m : List (String × String)) (k k' v : String)
    (h : k ≠ k') : sLookup (sSet m k' v) k = sLookup m k := by
  induction m with
  | nil => simp [sSet, sLookup, Ne.symm h]
  | cons kv rest ih =>
    obtain ⟨k0, v0⟩ := kv
    by_cases h0 : k0 = k'
    · subst h0
      simp [sSet, sLookup, Ne.symm h]
    · simp only [sSet, if_neg h0, sLookup]
      by_cases h1 : k0 = k
      · simp [h1]
      · simp [h1, ih]

theorem sLookup_sSet_self (m : List (String × String)) (k v : String) :
    sLookup (sSet m k v) k = some v := by
  induction m with
  | nil => simp [sSet, sLookup]
  | cons kv rest ih =>
    obtain ⟨k0, v0⟩ := kv
    by_cases h0 : k0 = k
    · simp [sSet, sLookup, h0]
    · simp [sSet, sLookup, h0, ih]

theorem markNotified_kindUnstruct (o : KObj) :
    (markNotified o).kindUnstruct = o.kindUnstruct := by
  unfold markNotified
  cases o.annotations <;> rfl

theorem wasNotified_markNotified (o : KObj) :
    wasNotified (markNotified o) = true := by
  unfold wasNotified markNotified
  cases o.annotations with
  | none => simp [sLookup]
  | some m => simp [sLookup_sSet_self]

theorem markNotified_annotations_lookup (o : KObj) (k : String)
    (hk : k ≠ notifiedKey) :
    (markNotified o).annotations.bind (fun m => sLookup m k) =
      o.annotations.bind (fun m => sLookup m k) := by
  unfold markNotified
  cases o.annotations with
  | none => simp [sLookup, Ne.symm hk]
  | some m => simp [sLookup_sSet_ne _ _ _ _ hk]

theorem handleExpiry_eq (cfg : Config) (now : Int) (o : KObj) (c : Counter) :
    handleExpiry cfg now o c =
      match o.annotations.bind (fun m => sLookup m expiryKey) with
      | none => ⟨none, o, c, []⟩
      | some s =>
        match parseRFC3339 s with
        | none => ⟨some "invalid expiry value", o, c, []⟩
        | some t =>
          if now > dtToNs t then
            ⟨none, o, bump c (lowerString o.kindUnstruct ++ "s-deleted"),
              createEvent cfg "ExpiryTimeReached" ++ deleteResource cfg o⟩
          else if 0 < cfg.deleteNotify ∧
              now > dtToNs t - cfg.deleteNotify * secondNs ∧ ¬ wasNotified o then
            ⟨none, (sendDeleteNotification cfg o).1, c, (sendDeleteNotification cfg o).2⟩
          else ⟨none, o, c, []⟩ := by
  unfold handleExpiry
  cases o.annotations with
  | none => rfl
  | some m => rfl

theorem handleExpiry_dry_real (cfg : Config) (now : Int) (o o' : KObj)
    (c : Counter) (ho : o' = o ∨ o' = markNotified o) :
    (handleExpiry { cfg with dryRun := true } now o c).counter =
      (handleExpiry { cfg with dryRun := false } now o' c).counter ∧
    (handleExpiry { cfg with dryRun := true } now o c).err =
      (handleExpiry { cfg with dryRun := false } now o' c).err ∧
    (handleExpiry { cfg with dryRun := true } now o c).obj = o ∧
    (∀ e ∈ (handleExpiry { cfg with dryRun := true } now o c).effects,
      e.isClientCall = false) := by
  have hexpEq : o'.annotations.bind (fun m => sLookup m expiryKey) =
      o.annotations.bind (fun m => sLookup m expiryKey) := by
    rcases ho with rfl | rfl
    · rfl
    · exact markNotified_annotations_lookup o expiryKey (by decide)
  have hkind : o'.kindUnstruct = o.kindUnstruct := by
    rcases ho with rfl | rfl
    · rfl
    · exact markNotified_kindUnstruct o
  rw [handleExpiry_eq, handleExpiry_eq, hexpEq, hkind]
  split
  · exact ⟨rfl, rfl, rfl, by simp⟩
  · split
    · exact ⟨rfl, rfl, rfl, by simp⟩
    · split
      · refine ⟨rfl, rfl, rfl, ?_⟩
        simp [createEvent, deleteResource, Effect.isClientCall]
      · split <;> split <;>
          refine ⟨rfl, rfl, ?_, ?_⟩ <;>
            simp [sendDeleteNotification, Effect.isClientCall]

theorem rulesLoop_dry_real (cfg : Config) (now : Int)
    (rm ctx : List (String × Json)) (o : KObj) (c : Counter) :
    ∀ rules : List Rule,
    (rulesLoop { cfg with dryRun := true } now rm ctx o c rules).counter =
      (rulesLoop { cfg with dryRun := false } now rm ctx o c rules).counter ∧
    (rulesLoop { cfg with dryRun := true } now rm ctx o c rules).err =
      (rulesLoop { cfg with dryRun := false } now rm ctx o c rules).err ∧
    (rulesLoop { cfg with dryRun := true } now rm ctx o c rules).obj = o ∧
    ((rulesLoop { cfg with dryRun := false } now rm ctx o c rules).obj = o ∨
      (rulesLoop { cfg with dryRun := false } now rm ctx o c rules).obj =
        markNotified o) ∧
    (∀ e ∈ (rulesLoop { cfg with dryRun := true } now rm ctx o c rules).effects,
      e.isClientCall = false) := by
  intro rules
  induction rules with
  | nil => exact ⟨rfl, rfl, rfl, .inl rfl, by simp [rulesLoop]⟩
  | cons r rest ih =>
    simp only [rulesLoop, deploymentTime_set_dryRun, set_dryRun_deleteNotify]
    split
    · split
      · exact ⟨rfl, rfl, rfl, .inl rfl, by simp⟩
      · split
        · exact ih
        · split
          · refine ⟨rfl, rfl, rfl, .inl rfl, ?_⟩
            simp [createEvent, deleteResource, Effect.isClientCall]
          · split
            · refine ⟨rfl, rfl, ?_, ?_, ?_⟩
              · simp [sendDeleteNotification]
              · exact sendNotify_real_obj cfg o
              · simp [sendDeleteNotification, Effect.isClientCall]
            · exact ⟨rfl, rfl, rfl, .inl rfl, by simp⟩
    · exact ih

theorem handleRules_dry_real (cfg : Config) (env : ApiEnv) (now : Int) (o : KObj)
    (c : Counter) :
    (handleRules { cfg with dryRun := true } env now o c).counter =
      (handleRules { cfg with dryRun := false } env now o c).counter ∧
    (handleRules { cfg with dryRun := true } env now o c).err =
      (handleRules { cfg with dryRun := false } env now o c).err ∧
    (handleRules { cfg with dryRun := true } env now o c).obj = o ∧
    ((handleRules { cfg with dryRun := false } env now o c).obj = o ∨
      (handleRules { cfg with dryRun := false } env now o c).obj =
        markNotified o) ∧
    (∀ e ∈ (handleRules { cfg with dryRun := true } env now o c).effects,
      e.isClientCall = false) := by
  unfold handleRules
  simp only [set_dryRun_rules, getResourceContext_set_dryRun]
  split
  · exact ⟨rfl, rfl, rfl, .inl rfl, by simp⟩
  · split
    · have h := rulesLoop_dry_real cfg now o.asMap [] o c cfg.rules
      refine ⟨h.1, h.2.1, h.2.2.1, h.2.2.2.1, ?_⟩
      intro e he
      rcases List.mem_cons.mp he with he | he
      · subst he
        rfl
      · exact h.2.2.2.2 e he
    · exact rulesLoop_dry_real cfg now o.asMap _ o c cfg.rules

theorem handleTTL_dry_real (cfg : Config) (env : ApiEnv) (now : Int) (o : KObj)
    (c : Counter) :
    (handleTTL { cfg with dryRun := true } env now o c).counter =
      (handleTTL { cfg with dryRun := false } env now o c).counter ∧
    (handleTTL { cfg with dryRun := true } env now o c).err =
      (handleTTL { cfg with dryRun := false } env now o c).err ∧
    (handleTTL { cfg with dryRun := true } env now o c).obj = o ∧
    ((handleTTL { cfg with dryRun := false } env now o c).obj = o ∨
      (handleTTL { cfg with dryRun := false } env now o c).obj =
        markNotified o) ∧
    (∀ e ∈ (handleTTL { cfg with dryRun := true } env now o c).effects,
      e.isClientCall = false) := by
  unfold handleTTL
  simp only [deploymentTime_set_dryRun, set_dryRun_deleteNotify]
  split
  · exact ⟨rfl, rfl, rfl, .inl rfl, by simp⟩
  · split
    · exact handleRules_dry_real cfg env now o c
    · split
      · exact ⟨rfl, rfl, rfl, .inl rfl, by simp⟩
      · split
        · exact ⟨rfl, rfl, rfl, .inl rfl, by simp⟩
        · split
          · refine ⟨rfl, rfl, rfl, .inl rfl, ?_⟩
            simp [createEvent, deleteResource, Effect.isClientCall]
          · split
            · refine ⟨rfl, rfl, ?_, ?_, ?_⟩
              · simp [sendDeleteNotification]
              · exact sendNotify_real_obj cfg o
              · simp [sendDeleteNotification, Effect.isClientCall]
            · exact ⟨rfl, rfl, rfl, .inl rfl, by simp⟩

/-- C6: the dry-run frame property of the decision engine.  For every
configuration, environment, instant, object and counter state, the dry run
(modelled against the always-succeeding client of the real run) reaches no
mutating client call at all (no event creation, no deletion, no webhook),
never marks the object notified, and produces exactly the counters and the
per-object error outcome of the corresponding real run. -/
theorem c6_dry_run_frame (cfg : Config) (env : ApiEnv) (now : Int) (o : KObj)
    (c : Counter) :
    (handleResource { cfg with dryRun := true } env now o c).counter =
      (handleResource { cfg with dryRun := false } env now o c).counter ∧
    (handleResource { cfg with dryRun := true } env now o c).err =
      (handleResource { cfg with dryRun := false } env now o c).err ∧
    (handleResource { cfg with dryRun := true } env now o c).obj = o ∧
    (∀ e ∈ (handleResource { cfg with dryRun := true } env now o c).effects,
      e.isClientCall = false) := by
  unfold handleResource
  simp only [matchesResourceFilter_set_dryRun]
  split
  · exact ⟨rfl, rfl, rfl, by simp⟩
  · obtain ⟨hc1, he1, hobjT, hobjR, heffT⟩ :=
      handleTTL_dry_real cfg env now o (bump c "resources-processed")
    rw [he1, hobjT, hc1]
    obtain ⟨h2c, h2e, h2o, h2eff⟩ :=
      handleExpiry_dry_real cfg now o
        (handleTTL { cfg with dryRun := false } env now o
          (bump c "resources-processed")).obj
        (handleTTL { cfg with dryRun := false } env now o
          (bump c "resources-processed")).counter
        hobjR
    rw [h2e, h2c, h2o]
    cases hE : (handleTTL { cfg with dryRun := false } env now o
        (bump c "resources-processed")).err with
    | some e =>
      exact ⟨rfl, rfl, rfl, heffT⟩
    | none =>
      cases hE2 : (handleExpiry { cfg with dryRun := false } now
          (handleTTL { cfg with dryRun := false } env now o
            (bump c "resources-processed")).obj
          (handleTTL { cfg with dryRun := false } env now o
            (bump c "resources-processed")).counter).err with
      | some e2 =>
        refine ⟨rfl, rfl, rfl, ?_⟩
        intro e he
        rcases List.mem_append.mp he with h | h
        · exact heffT e h
        · exact h2eff e h
      | none =>
        refine ⟨rfl, rfl, rfl, ?_⟩
        intro e he
        rcases List.mem_append.mp he with h | h
        · exact heffT e h
        · exact h2eff e h

theorem c3_expiry_branch_gated_on_ttl_success_witness :
    (Effect.deleteCall "default" "x" ∈
        (handleResource baseCfg emptyEnv 1800000000000000000 foreverExpObj []).effects ∧
      (handleResource baseCfg emptyEnv 1800000000000000000 foreverExpObj []).err
        = none) ∧
    ((handleResource baseCfg emptyEnv 1800000000000000000 badTTLObj []).err.isSome
        = true ∧
      (handleResource baseCfg emptyEnv 1800000000000000000 badTTLObj []).effects
        = [] ∧
      (handleResource baseCfg emptyEnv 1800000000000000000 badTTLObj []).counter
        = bump [] "resources-processed") ∧
    cget (processResources baseCfg emptyEnv 1800000000000000000
        [badTTLObj, otherPodObj] ⟨[], [], []⟩).counter "resources-processed"
      = cget [] "resources-processed" + 2 :=
  ⟨c3_expiry_branch_gated_on_ttl_success.1 baseCfg emptyEnv 1800000000000000000
      foreverExpObj [(ttlKey, "forever"), (expiryKey, "2020-01-01T00:00:00Z")] []
      "2020-01-01T00:00:00Z" ⟨2020, 1, 1, 0, 0, 0, 0⟩ rfl rfl rfl rfl rfl rfl
      (by decide),
    c3_expiry_branch_gated_on_ttl_success.2.1 baseCfg emptyEnv 1800000000000000000
      badTTLObj [(ttlKey, "1x"), (expiryKey, "2020-01-01T00:00:00Z")] [] "1x"
      rfl rfl rfl rfl,
    c3_expiry_branch_gated_on_ttl_success.2.2 baseCfg emptyEnv 1800000000000000000
      badTTLObj otherPodObj [(ttlKey, "1x"), (expiryKey, "2020-01-01T00:00:00Z")]
      [] "1x" rfl rfl rfl rfl rfl rfl (by decide)⟩

theorem c5_dedup_within_shared_phase_witness :
    processResources baseCfg emptyEnv 0 ([podFixture none] ++ [podFixture none])
        ⟨[], [], []⟩
      = processResources baseCfg emptyEnv 0 [podFixture none] ⟨[], [], []⟩ ∧
    processResources baseCfg emptyEnv 0 ([] ++ [podFixture none])
        (processResources baseCfg emptyEnv 0 [podFixture none] ⟨[], [], []⟩)
      = processResources baseCfg emptyEnv 0 []
          (processResources baseCfg emptyEnv 0 [podFixture none] ⟨[], [], []⟩) :=
  ⟨c5_dedup_within_shared_phase.1 baseCfg emptyEnv 0 [podFixture none]
      (podFixture none) ⟨[], [], []⟩ (.inr (by decide)),
    c5_dedup_within_shared_phase.2 baseCfg emptyEnv 0 [podFixture none] []
      (podFixture none) ⟨[], [], []⟩ (by decide)⟩

theorem c6_dry_run_frame_witness :
    (handleResource { baseCfg with dryRun := true } emptyEnv 1800000000000000000
        expiredTTLObj []).counter =
      (handleResource { baseCfg with dryRun := false } emptyEnv 1800000000000000000
        expiredTTLObj []).counter ∧
    Effect.isClientCall (.dryLog "would delete") = false :=
  have h := c6_dry_run_frame baseCfg emptyEnv 1800000000000000000 expiredTTLObj []
  ⟨h.1, h.2.2.2 (.dryLog "would delete") (by decide)⟩

theorem c7_pvc_context_failure_policy_witness :
    (getPVCContext podsErrEnv "p").isOk = false ∧
    (getPVCContext stsErrEnv "p").isOk = false ∧
    (getPVCContext ⟨.ok [], .ok [], .error "e1", .error "e2", .error "e3"⟩
      "p").isOk = true ∧
    handleRules oneRuleCfg podsErrEnv 0 pvcObj [] =
      { rulesLoop oneRuleCfg 0 pvcObj.asMap [] pvcObj [] oneRuleCfg.rules with
        effects := .warnLog "failed to get context" ::
          (rulesLoop oneRuleCfg 0 pvcObj.asMap [] pvcObj []
            oneRuleCfg.rules).effects } :=
  ⟨c7_pvc_context_failure_policy.1 podsErrEnv "p" "boom" rfl,
    c7_pvc_context_failure_policy.2.1 stsErrEnv "p" [] "boom" rfl rfl,
    c7_pvc_context_failure_policy.2.2.1 [] [] "e1" "e2" "e3" "p",
    c7_pvc_context_failure_policy.2.2.2 oneRuleCfg podsErrEnv 0 pvcObj [] rfl rfl⟩
